import Mathlib

/-!
Shallow embedding of the gastown hybrid work-dispatch core
(`internal/backend`: task analyzer, model selection, router legacy paths,
context manager, cost tracker), together with theorems settling the frozen
claims about it.  Every definition is translated from the Go source; the few
definitions written from the spec's words instead are explicitly marked.
-/

namespace Gastown

/-! ## String helpers modelling the Go standard library -/

/-- Models `unicode.ToLower` as applied rune-wise by `strings.ToLower`,
restricted to its ASCII action.  Non-ASCII case mappings are not modelled;
every pattern the analyzer matches against is ASCII, and each claim proved
below uses the same lowering on both sides. -/
def goToLowerChar (c : Char) : Char :=
  if 'A' ≤ c ∧ c ≤ 'Z' then Char.ofNat (c.toNat + 32) else c

/-- `strings.ToLower`. -/
def goToLower (s : String) : String :=
  String.mk (s.data.map goToLowerChar)

/-- Helper for `goContains`: does `pat` occur in `hay`? -/
def goContainsAux (pat : List Char) : List Char → Bool
  | [] => pat.isPrefixOf []
  | c :: t => pat.isPrefixOf (c :: t) || goContainsAux pat t

/-- Models `strings.Contains s sub` (byte search in Go; over valid UTF-8 with
an ASCII needle this coincides with search over characters). -/
def goContains (s sub : String) : Bool :=
  goContainsAux sub.data s.data

/-- Models `unicode.IsSpace` (the White_Space property used by
`strings.Fields`). -/
def goIsSpace (c : Char) : Bool :=
  c == ' ' || c == '\t' || c == '\n' || c.toNat == 11 || c.toNat == 12 ||
  c == '\r' || c.toNat == 0x85 || c.toNat == 0xA0 || c.toNat == 0x1680 ||
  (decide (0x2000 ≤ c.toNat) && decide (c.toNat ≤ 0x200A)) ||
  c.toNat == 0x2028 || c.toNat == 0x2029 || c.toNat == 0x202F ||
  c.toNat == 0x205F || c.toNat == 0x3000

/-- Helper for `goCountFields`: counts maximal runs of non-space characters;
the flag records whether the previous character was inside a word. -/
def goCountFieldsAux : List Char → Bool → Nat
  | [], _ => 0
  | c :: rest, inWord =>
    if goIsSpace c then goCountFieldsAux rest false
    else (if inWord then 0 else 1) + goCountFieldsAux rest true

/-- Models `len(strings.Fields s)`: the number of whitespace-separated
fields of `s`. -/
def goCountFields (s : String) : Nat :=
  goCountFieldsAux s.data false

/-! ### The numbered-list regex `\d+\.\s+\w+`

Go's `regexp` (RE2) character classes: `\d` is `[0-9]`, `\s` is
`[\t\n\f\r ]`, `\w` is `[0-9A-Za-z_]`.  For this pattern, leftmost matching
with greedy quantifiers is deterministic maximal munch, because consecutive
character classes are disjoint. -/

def isReDigit (c : Char) : Bool := decide ('0' ≤ c) && decide (c ≤ '9')

def isReSpace (c : Char) : Bool :=
  c == '\t' || c == '\n' || c.toNat == 12 || c == '\r' || c == ' '

def isReWord (c : Char) : Bool :=
  isReDigit c || (decide ('a' ≤ c) && decide (c ≤ 'z')) ||
  (decide ('A' ≤ c) && decide (c ≤ 'Z')) || c == '_'

/-- Consume one or more characters satisfying `p`; return the remainder, or
`none` when the first character does not satisfy `p`. -/
def takeClass1 (p : Char → Bool) : List Char → Option (List Char)
  | [] => none
  | c :: rest => if p c then some (rest.dropWhile p) else none

/-- Try to match `\d+\.\s+\w+` at the start of `l`; on success return the
remainder after the (maximal-munch) match. -/
def matchNumberedAt (l : List Char) : Option (List Char) :=
  (takeClass1 isReDigit l).bind fun l1 =>
    match l1 with
    | '.' :: l2 => (takeClass1 isReSpace l2).bind fun l3 => takeClass1 isReWord l3
    | _ => none

/-- Count non-overlapping leftmost matches of the numbered-list pattern,
as `regexp.FindAllString(text, -1)` does.  Fuel-indexed; each step consumes
at least one character, so fuel `l.length` suffices. -/
def countNumberedAux : Nat → List Char → Nat
  | 0, _ => 0
  | _ + 1, [] => 0
  | fuel + 1, c :: t =>
    match matchNumberedAt (c :: t) with
    | some rem => 1 + countNumberedAux fuel rem
    | none => countNumberedAux fuel t

/-- Number of matches of `\d+\.\s+\w+` in `s`. -/
def countNumberedMatches (s : String) : Nat :=
  countNumberedAux s.data.length s.data

/-! ## Task analyzer (`internal/backend/analyzer.go`) -/

/-- Go `type ModelTier int`; the named constants follow. -/
abbrev ModelTier := Int

def TierSimple : ModelTier := 0
def TierModerate : ModelTier := 1
def TierComplex : ModelTier := 2
def TierCLI : ModelTier := 3

/-- `ModelTier.String()`. -/
def tierString (t : ModelTier) : String :=
  if t = TierSimple then "simple"
  else if t = TierModerate then "moderate"
  else if t = TierComplex then "complex"
  else if t = TierCLI then "cli"
  else "unknown"

structure TaskComplexity where
  Score : Int
  MinTier : ModelTier
  RequiresToolUse : Bool
  Signals : List String
  deriving Repr, DecidableEq, Inhabited

/-- The fixed tool-use phrase list of `requiresToolUse`. -/
def toolPatterns : List String :=
  ["create file", "create a file", "write to file", "edit file",
   "modify file", "delete file", "run test", "run the test",
   "execute command", "git commit", "git push", "git pull",
   "npm install", "npm run", "pip install", "make build",
   "deploy to", "restart service", "ssh into", "docker build",
   "docker run", "docker compose", "kubectl apply", "kubectl create"]

/-- `(*TaskAnalyzer).requiresToolUse`. -/
def requiresToolUse (text : String) : Bool :=
  toolPatterns.any fun p => goContains text p

/-- The `complexPatterns` keyword/points table.  In Go this is a map whose
iteration order is unspecified; the score is the order-independent sum of the
points of all matching keywords, so a fixed list is a faithful model of the
score (the order of the appended signals is fixed here to source order). -/
def complexPatterns : List (String × Int) :=
  [("implement", 30), ("refactor", 30), ("architect", 40), ("design", 25),
   ("debug", 20), ("optimize", 20), ("migrate", 25), ("integrate", 20),
   ("multi-step", 20), ("comprehensive", 15)]

def multiStepPatterns : List String :=
  ["and then", "after that", "first,", "second,", "finally,",
   "step 1", "step 2"]

def simplePatterns : List String :=
  ["summarize", "explain", "what is", "list", "format", "convert",
   "translate", "classify", "categorize"]

/-- The word-count bucket bonus of `Analyze`. -/
def lengthScore (wordCount : Nat) : Int :=
  if wordCount > 200 then 25
  else if wordCount > 100 then 15
  else if wordCount > 50 then 5
  else 0

/-- Sum of the points of every matching complexity keyword. -/
def complexScore (combined : String) : Int :=
  complexPatterns.foldl
    (fun acc pp => if goContains combined pp.1 then acc + pp.2 else acc) 0

/-- The raw (pre-clamp) score accumulated by `Analyze` in its
non-tool-use branch, including the sequential label clamps. -/
def rawScore (combined : String) (labels : List String) : Int :=
  let base : Int :=
    lengthScore (goCountFields combined) +
    complexScore combined +
    (if multiStepPatterns.any (fun p => goContains combined p) then 25 else 0) +
    (if countNumberedMatches combined > 2 then 10 else 0) +
    (if simplePatterns.any (fun p => goContains combined p) then -10 else 0)
  labels.foldl
    (fun s label =>
      if label = "tier:fast" ∨ label = "tier:cheap" then min s 30
      else if label = "tier:quality" ∨ label = "tier:powerful" then max s 60
      else s)
    base

/-- The final clamp of `Analyze`: `if score < 0 then 0; if score > 100
then 100`. -/
def clampScore (s : Int) : Int :=
  if s < 0 then 0 else if s > 100 then 100 else s

/-- `(*TaskAnalyzer).scoreToTier`. -/
def scoreToTier (score : Int) : ModelTier :=
  if score < 25 then TierSimple
  else if score < 50 then TierModerate
  else TierComplex

/-- The signal names collected by the non-tool-use branch of `Analyze`.
Signals from the `complexPatterns` map are listed in source order (Go's map
iteration order is unspecified); no claim depends on their order. -/
def analyzeSignals (combined : String) (labels : List String) : List String :=
  let wc := goCountFields combined
  (if wc > 200 then ["long-description"]
   else if wc > 100 then ["medium-description"] else []) ++
  (complexPatterns.foldl
    (fun acc pp => if goContains combined pp.1 then acc ++ ["complex:" ++ pp.1] else acc) []) ++
  (if multiStepPatterns.any (fun p => goContains combined p) then ["multi-step"] else []) ++
  (if countNumberedMatches combined > 2 then ["numbered-list"] else []) ++
  (match simplePatterns.find? (fun p => goContains combined p) with
   | some p => ["simple:" ++ p]
   | none => []) ++
  (labels.foldl
    (fun acc label =>
      if label = "tier:fast" ∨ label = "tier:cheap" then acc ++ ["user-hint:cheap"]
      else if label = "tier:quality" ∨ label = "tier:powerful" then acc ++ ["user-hint:quality"]
      else acc) [])

/-- `(*TaskAnalyzer).Analyze`. -/
def analyze (title description : String) (labels : List String) : TaskComplexity :=
  let combined := goToLower (title ++ " " ++ description)
  if requiresToolUse combined then
    { Score := 100, MinTier := TierCLI, RequiresToolUse := true,
      Signals := ["requires-tool-use"] }
  else
    let score := clampScore (rawScore combined labels)
    { Score := score, MinTier := scoreToTier score, RequiresToolUse := false,
      Signals := analyzeSignals combined labels }

/-! ## Model capability catalog and selection (`internal/backend/analyzer.go`) -/

/-- `ModelCapability`.  `CostPer1K` is Go `float64`; every catalog cost is a
short decimal whose `float64` rounding preserves ordering and equality of the
listed values, so exact rationals are an order-faithful model. -/
structure ModelCapability where
  Backend : String
  Model : String
  Tier : ModelTier
  CostPer1K : ℚ
  SpeedScore : Int
  deriving Repr, DecidableEq, Inhabited

/-- The `ModelCapabilities` catalog, in source order. -/
def ModelCapabilities : List ModelCapability :=
  [{ Backend := "grok", Model := "grok-3-mini", Tier := TierSimple,
     CostPer1K := 0.0001, SpeedScore := 9 },
   { Backend := "bedrock", Model := "haiku", Tier := TierSimple,
     CostPer1K := 0.001, SpeedScore := 8 },
   { Backend := "grok", Model := "grok-3", Tier := TierModerate,
     CostPer1K := 0.01, SpeedScore := 7 },
   { Backend := "bedrock", Model := "sonnet", Tier := TierModerate,
     CostPer1K := 0.009, SpeedScore := 6 },
   { Backend := "bedrock", Model := "opus", Tier := TierComplex,
     CostPer1K := 0.045, SpeedScore := 4 }]

/-- Go `type Intent string`; the named constants follow. -/
abbrev Intent := String

def IntentAuto : Intent := "auto"
def IntentFast : Intent := "fast"
def IntentCheap : Intent := "cheap"
def IntentBalanced : Intent := "balanced"
def IntentQuality : Intent := "quality"

/-- `ExtractIntent`: first matching `tier:` label wins. -/
def extractIntent : List String → Intent
  | [] => IntentAuto
  | label :: rest =>
    if label = "tier:fast" then IntentFast
    else if label = "tier:cheap" then IntentCheap
    else if label = "tier:balanced" then IntentBalanced
    else if label = "tier:quality" ∨ label = "tier:powerful" then IntentQuality
    else extractIntent rest

/-- The intent adjustment of `SelectModel`: fast/cheap allow one tier lower
(only when above Simple), quality raises by one (only when below Complex). -/
def effectiveMinTier (minTier : ModelTier) (intent : Intent) : ModelTier :=
  if intent = IntentFast ∨ intent = IntentCheap then
    if minTier > TierSimple then minTier - 1 else minTier
  else if intent = IntentQuality then
    if minTier < TierComplex then minTier + 1 else minTier
  else minTier

/-- The candidate-picking loop of `SelectModel`: highest speed for `fast`
intent, otherwise lowest cost; strict comparisons keep the earliest on ties. -/
def pickBest (intent : Intent) (first : ModelCapability)
    (rest : List ModelCapability) : ModelCapability :=
  rest.foldl
    (fun best c =>
      if intent = IntentFast then
        if c.SpeedScore > best.SpeedScore then c else best
      else
        if c.CostPer1K < best.CostPer1K then c else best)
    first

/-- `SelectModel`.  The Go `available` map is used only for membership, so the
backend list stands in for it directly. -/
def selectModel (complexity : TaskComplexity) (intent : Intent)
    (availableBackends : List String) : Option ModelCapability :=
  if complexity.RequiresToolUse then none
  else
    let minTier := effectiveMinTier complexity.MinTier intent
    let candidates := ModelCapabilities.filter
      (fun c => decide (c.Tier ≥ minTier) && decide (c.Backend ∈ availableBackends))
    match candidates with
    | [] => none
    | first :: rest => some (pickBest intent first rest)

/-! ## Router types and legacy routing (`internal/backend/backend.go`,
router code) -/

abbrev RoutingDecision := String

def RouteAPI : RoutingDecision := "api"
def RouteCLI : RoutingDecision := "cli"

structure RouteResult where
  Decision : RoutingDecision
  Backend : String := ""
  Model : String := ""
  Reason : String := ""
  FallbackToCLI : Bool := false
  deriving Repr, DecidableEq, Inhabited

/-- The fields of `RoutingConfig` that `Route` reads (the custom rule list is
never consulted by the routing algorithm). -/
structure RoutingConfig where
  Enabled : Bool
  DefaultRoute : RoutingDecision
  DefaultBackend : String
  DefaultModel : String
  CostThreshold : ℚ
  TokenThreshold : Int
  FallbackToCLI : Bool
  deriving Repr, DecidableEq, Inhabited

/-- `DefaultRoutingConfig`. -/
def DefaultRoutingConfig : RoutingConfig :=
  { Enabled := false, DefaultRoute := RouteCLI, DefaultBackend := "bedrock",
    DefaultModel := "haiku", CostThreshold := 0.50, TokenThreshold := 50000,
    FallbackToCLI := true }

structure RoutingHints where
  Title : String := ""
  Description : String := ""
  Tier : String := ""
  ModelTag : String := ""
  Intent : Intent := ""
  /-- Go field `Type` (renamed: `Type` is a Lean keyword). -/
  IssueType : String := ""
  EstimatedTokens : Int := 0
  Labels : List String := []
  deriving Repr, DecidableEq, Inhabited

/-- A `Router`; the registry's mutable backend map is modelled by the list of
registered backend names (`Has` is membership, `List` returns the names — Go's
map iteration order is unspecified, and every consumer below is
order-insensitive). -/
structure Router where
  config : RoutingConfig
  registered : List String
  deriving Repr, DecidableEq, Inhabited

/-- The static `TierToBackend` table. -/
def tierToBackend : List (String × String × String) :=
  [("haiku", "bedrock", "haiku"),
   ("sonnet", "bedrock", "sonnet"),
   ("opus", "bedrock", "opus"),
   ("grok-fast", "grok", "grok-3-mini"),
   ("grok", "grok", "grok-3"),
   ("grok-4", "grok", "grok-4"),
   ("gpt4", "openai", "gpt-4o"),
   ("o1", "openai", "o1"),
   ("o3-mini", "openai", "o3-mini")]

/-- Map lookup in `TierToBackend`. -/
def tierToBackendLookup (tag : String) : Option (String × String) :=
  (tierToBackend.find? (fun e => e.1 = tag)).map (·.2)

/-- The tag→intent table of `findFallbackForTag`. -/
def fallbackIntentForTag (tag : String) : Intent :=
  if tag = "grok-fast" ∨ tag = "haiku" then IntentCheap
  else if tag = "grok" ∨ tag = "sonnet" then IntentBalanced
  else if tag = "opus" ∨ tag = "grok-4" then IntentQuality
  else IntentAuto

/-- The assumed complexity `findFallbackForTag` builds from the intent
(`TaskComplexity{MinTier: ...}` with all other fields zero). -/
def fallbackComplexityForIntent (intent : Intent) : TaskComplexity :=
  { Score := 0,
    MinTier :=
      if intent = IntentQuality then TierComplex
      else if intent = IntentBalanced then TierModerate
      else TierSimple,
    RequiresToolUse := false, Signals := [] }

/-- `(*Router).findFallbackForTag`. -/
def findFallbackForTag (r : Router) (tag : String) : Option RouteResult :=
  let intent := fallbackIntentForTag tag
  match selectModel (fallbackComplexityForIntent intent) intent r.registered with
  | none => none
  | some sel =>
    some { Decision := RouteAPI, Backend := sel.Backend, Model := sel.Model,
           Reason := "fallback from " ++ tag ++ " to " ++ sel.Backend ++ "/" ++ sel.Model,
           FallbackToCLI := r.config.FallbackToCLI }

/-- `(*Router).routeByModelTag`. -/
def routeByModelTag (r : Router) (tag : String) : Option RouteResult :=
  match tierToBackendLookup tag with
  | some mp =>
    if mp.1 ∈ r.registered then
      some { Decision := RouteAPI, Backend := mp.1, Model := mp.2,
             Reason := "legacy model tag: " ++ tag,
             FallbackToCLI := r.config.FallbackToCLI }
    else
      findFallbackForTag r tag
  | none =>
    if tag ∈ r.registered then
      some { Decision := RouteAPI, Backend := tag,
             Reason := "legacy model tag (backend): " ++ tag,
             FallbackToCLI := r.config.FallbackToCLI }
    else none

/-- The tier→(intent, minTier) switch of `routeByLegacyTier`; `none` models
the `default` branch. -/
def legacyTierParams (tier : String) : Option (Intent × ModelTier) :=
  if tier = "haiku" then some (IntentCheap, TierSimple)
  else if tier = "sonnet" then some (IntentBalanced, TierModerate)
  else if tier = "opus" then some (IntentQuality, TierComplex)
  else none

/-- `(*Router).routeByLegacyTier`. -/
def routeByLegacyTier (r : Router) (tier0 : String) : Option RouteResult :=
  let tier := goToLower tier0
  match legacyTierParams tier with
  | none => none
  | some (intent, minTier) =>
    match selectModel { Score := 0, MinTier := minTier,
                        RequiresToolUse := false, Signals := [] }
                      intent r.registered with
    | none =>
      some { Decision := RouteCLI,
             Reason := "no API model available for tier: " ++ tier }
    | some sel =>
      some { Decision := RouteAPI, Backend := sel.Backend, Model := sel.Model,
             Reason := "legacy tier: " ++ tier ++ " → " ++ sel.Backend ++ "/" ++ sel.Model,
             FallbackToCLI := r.config.FallbackToCLI }

/-- `(*Router).buildReason`. -/
def buildReason (complexity : TaskComplexity) (intent : Intent)
    (selected : ModelCapability) : String :=
  String.intercalate ", "
    (["complexity=" ++ tierString complexity.MinTier] ++
     (if intent ≠ IntentAuto then ["intent=" ++ intent] else []) ++
     ["selected=" ++ selected.Backend ++ "/" ++ selected.Model])

/-- Steps 5–9 of `Route` (analysis, token threshold, availability, model
selection); extracted from the tail of the Go function body. -/
def routeByAnalysis (r : Router) (hints : RoutingHints) (intent : Intent) :
    RouteResult :=
  let complexity := analyze hints.Title hints.Description hints.Labels
  if complexity.RequiresToolUse then
    { Decision := RouteCLI,
      Reason := "task requires tool use (file operations, git, etc.)" }
  else if hints.EstimatedTokens > 0 ∧ hints.EstimatedTokens > r.config.TokenThreshold then
    { Decision := RouteCLI, Reason := "exceeds token threshold" }
  else if r.registered.length = 0 then
    { Decision := RouteCLI, Reason := "no API backends available" }
  else
    match selectModel complexity intent r.registered with
    | none =>
      { Decision := RouteCLI,
        Reason := "no suitable model available for task complexity",
        FallbackToCLI := true }
    | some sel =>
      { Decision := RouteAPI, Backend := sel.Backend, Model := sel.Model,
        Reason := buildReason complexity intent sel,
        FallbackToCLI := r.config.FallbackToCLI }

/-- The intent `Route` computes in step 2 (labels first, then the explicit
hint field when labels give `auto`). -/
def routeIntent (hints : RoutingHints) : Intent :=
  let intent := extractIntent hints.Labels
  if intent = IntentAuto ∧ hints.Intent ≠ "" then hints.Intent else intent

/-- Steps 4–9 of `Route`: the legacy tier stage followed by the analysis
stage. -/
def routeFromTierStage (r : Router) (hints : RoutingHints) (intent : Intent) :
    RouteResult :=
  match (if hints.Tier ≠ "" then routeByLegacyTier r hints.Tier else none) with
  | some res => res
  | none => routeByAnalysis r hints intent

/-- `(*Router).Route` (a `nil` hints pointer is replaced by the zero value
before use, so the model takes the hints record directly). -/
def route (r : Router) (hints : RoutingHints) : RouteResult :=
  if ¬ r.config.Enabled then
    { Decision := RouteCLI, Reason := "hybrid routing disabled" }
  else
    let intent := routeIntent hints
    match (if hints.ModelTag ≠ "" then routeByModelTag r hints.ModelTag else none) with
    | some res => res
    | none => routeFromTierStage r hints intent

/-! ## Context manager (`internal/backend/context.go`) -/

structure Message where
  Role : String
  Content : String
  deriving Repr, DecidableEq, Inhabited

abbrev TruncationStrategy := String

def TruncateOldest : TruncationStrategy := "truncate_oldest"
def TruncateMiddle : TruncationStrategy := "truncate_middle"
def TruncateLongest : TruncationStrategy := "truncate_longest"

structure ContextManager where
  DefaultStrategy : TruncationStrategy
  ReserveTokens : Int
  deriving Repr, DecidableEq, Inhabited

/-- `NewContextManager`. -/
def NewContextManager : ContextManager :=
  { DefaultStrategy := TruncateOldest, ReserveTokens := 4096 }

/-- `(*ContextManager).estimateMessageTokens`: `(len(Content) + len(Role) +
10) / 4`, where Go `len` counts UTF-8 bytes and the operands are
non-negative, so Go's truncating division is `Nat` division. -/
def estimateMessageTokens (msg : Message) : Int :=
  ((msg.Content.utf8ByteSize + msg.Role.utf8ByteSize + 10) / 4 : Nat)

/-- `(*ContextManager).estimateTokens`. -/
def estimateTokens (messages : List Message) : Int :=
  messages.foldl (fun total msg => total + estimateMessageTokens msg) 0

/-- Longest prefix of `s` whose UTF-8 encoding fits in `n` bytes.  Models the
Go byte slice `s[:n]`; Go may cut in the middle of a rune, producing a byte
string that is not valid UTF-8 and hence not representable as a Lean
`String` — no claim below depends on the cut content. -/
def goTakeBytesAux : List Char → Int → List Char
  | [], _ => []
  | c :: rest, n =>
    if (c.utf8Size : Int) ≤ n then c :: goTakeBytesAux rest (n - c.utf8Size)
    else []

def goTakeBytes (s : String) (n : Int) : String :=
  String.mk (goTakeBytesAux s.data n)

/-- `(*ContextManager).truncateMessage`. -/
def truncateMessage (msg : Message) (maxTokens : Int) : Message :=
  let maxChars := maxTokens * 4
  if (msg.Content.utf8ByteSize : Int) ≤ maxChars then msg
  else { Role := msg.Role, Content := goTakeBytes msg.Content (maxChars - 3) ++ "..." }

/-- The system/conversation split performed by `truncateOldest` and
`truncateMiddle`: only a message with role `"system"` at index 0 is treated
as the system message; every other message is conversation. -/
def splitLeadingSystem : List Message → Option Message × List Message
  | [] => (none, [])
  | m :: rest =>
    if m.Role = "system" then (some m, rest) else (none, m :: rest)

/-- The keep-from-the-end loop of `truncateOldest`, on the reversed
conversation: keep messages while they fit, stop at the first that does not
(the Go loop `break`s there). -/
def pickRecentAux : List Message → Int → Int → List Message
  | [], _, _ => []
  | m :: rest, current, avail =>
    if current + estimateMessageTokens m > avail then []
    else m :: pickRecentAux rest (current + estimateMessageTokens m) avail

/-- `(*ContextManager).truncateOldest`. -/
def truncateOldest (messages : List Message) (maxTokens : Int) :
    Except String (List Message) :=
  if messages.length < 2 then .ok messages
  else
    let sysConv := splitLeadingSystem messages
    let systemTokens := match sysConv.1 with
      | some m => estimateMessageTokens m
      | none => 0
    let availableForConversation := maxTokens - systemTokens
    if availableForConversation ≤ 0 then
      match sysConv.1 with
      | some m => .ok [truncateMessage m maxTokens]
      | none => .error ("cannot fit any messages in " ++ toString maxTokens ++ " tokens")
    else
      let result := (pickRecentAux sysConv.2.reverse 0 availableForConversation).reverse
      .ok (match sysConv.1 with
           | some m => m :: result
           | none => result)

/-- Insertion at index `n` (Go's append/copy shift in `truncateMiddle`). -/
def insertAt (n : Nat) (a : Message) (l : List Message) : List Message :=
  l.take n ++ a :: l.drop n

/-- The middle-keeping loop of `truncateMiddle` over the remaining middle
segment `l`; `kept` and `leftCount` mirror the Go `kept` slice and `left`
counter (right-taken messages are inserted at position `leftCount`, which
reproduces the Go ordering exactly, scrambles included). -/
def middleLoop : List Message → List Message → Nat → Int → Int → List Message
  | [], kept, _, _, _ => kept
  | x :: rest, kept, leftCount, current, remaining =>
    if current + estimateMessageTokens x ≤ remaining then
      let kept1 := kept ++ [x]
      let current1 := current + estimateMessageTokens x
      let leftCount1 := leftCount + 1
      if hr : rest = [] then kept1
      else
        let y := rest.getLast hr
        if current1 + estimateMessageTokens y ≤ remaining then
          middleLoop rest.dropLast (insertAt leftCount1 y kept1) leftCount1
            (current1 + estimateMessageTokens y) remaining
        else kept1
    else kept
termination_by l => l.length
decreasing_by
  simp [List.length_dropLast]
  omega

/-- `(*ContextManager).truncateMiddle`. -/
def truncateMiddle (messages : List Message) (maxTokens : Int) :
    Except String (List Message) :=
  if messages.length ≤ 2 then .ok messages
  else
    let sysConv := splitLeadingSystem messages
    let conversation := sysConv.2
    if conversation.length ≤ 2 then
      .ok (match sysConv.1 with
           | some m => m :: conversation
           | none => conversation)
    else
      let systemTokens := match sysConv.1 with
        | some m => estimateMessageTokens m
        | none => 0
      let availableForConversation := maxTokens - systemTokens
      let first := conversation.head!
      let last := conversation.getLast!
      let remaining := availableForConversation -
        estimateMessageTokens first - estimateMessageTokens last
      if remaining ≤ 0 then
        .ok (match sysConv.1 with
             | some m => m :: [first, last]
             | none => [first, last])
      else
        let middle := conversation.tail.dropLast
        let kept := middleLoop middle [] 0 0 remaining
        .ok (match sysConv.1 with
             | some m => m :: (first :: kept ++ [last])
             | none => first :: kept ++ [last])

/-- The longest-non-system scan of `truncateLongest`: running first-argmax
over content byte length, skipping system messages; starts from length 0 with
a strict comparison, so empty-content messages are never selected. -/
def findLongestAux : List Message → Nat → Option Nat → Nat → Option Nat
  | [], _, best, _ => best
  | m :: rest, idx, best, bestLen =>
    if m.Role ≠ "system" ∧ m.Content.utf8ByteSize > bestLen then
      findLongestAux rest (idx + 1) (some idx) m.Content.utf8ByteSize
    else findLongestAux rest (idx + 1) best bestLen

def findLongestIdx (msgs : List Message) : Option Nat :=
  findLongestAux msgs 0 none 0

/-- The `for`-loop of `truncateLongest`, fuel-indexed: each iteration removes
one message, so fuel `msgs.length` suffices. -/
def truncateLongestLoop : Nat → List Message → Int → List Message
  | 0, msgs, _ => msgs
  | fuel + 1, msgs, maxTokens =>
    if estimateTokens msgs > maxTokens ∧ msgs.length > 1 then
      match findLongestIdx msgs with
      | none => msgs
      | some i => truncateLongestLoop fuel (msgs.eraseIdx i) maxTokens
    else msgs

/-- `(*ContextManager).truncateLongest` (the initial `copy` only protects the
caller's slice; value lists need no copy). -/
def truncateLongest (messages : List Message) (maxTokens : Int) :
    Except String (List Message) :=
  .ok (truncateLongestLoop messages.length messages maxTokens)

/-- `(*ContextManager).PrepareContext`. -/
def prepareContext (cm : ContextManager) (messages : List Message)
    (maxTokens : Int) (strategy : TruncationStrategy) :
    Except String (List Message) :=
  if messages.length = 0 then .ok messages
  else
    let currentTokens := estimateTokens messages
    let availableTokens := maxTokens - cm.ReserveTokens
    if availableTokens ≤ 0 then
      .error ("max_tokens (" ++ toString maxTokens ++
        ") too small for response reserve (" ++ toString cm.ReserveTokens ++ ")")
    else if currentTokens ≤ availableTokens then .ok messages
    else
      let strategy := if strategy = "" then cm.DefaultStrategy else strategy
      if strategy = TruncateOldest then truncateOldest messages availableTokens
      else if strategy = TruncateMiddle then truncateMiddle messages availableTokens
      else if strategy = TruncateLongest then truncateLongest messages availableTokens
      else truncateOldest messages availableTokens

/-! ## Cost tracker (cost tracking file, `package backend`) -/

/-- `CostEstimate`.  The Go cost fields are `float64`; they are modelled as
exact rationals — every ledger operation below is arithmetic-generic (it adds
whatever the field holds), so the choice does not affect the claims. -/
structure CostEstimate where
  InputCost : ℚ
  OutputCost : ℚ
  TotalCost : ℚ
  Currency : String
  Model : String
  deriving Repr, DecidableEq, Inhabited

structure InvokeResult where
  Content : String
  Model : String
  InputTokens : Int
  OutputTokens : Int
  FinishReason : String
  deriving Repr, DecidableEq, Inhabited

/-- `CostEntry`; `Timestamp` models `time.Time` as an abstract tick supplied
by the caller of `record` (the code stores `time.Now()`). -/
structure CostEntry where
  Timestamp : Nat
  Backend : String
  Model : String
  InputTokens : Int
  OutputTokens : Int
  Cost : CostEstimate
  deriving Repr, DecidableEq, Inhabited

/-- `CostTracker` state (its mutex serialises access in Go; the model passes
state explicitly). -/
structure CostTracker where
  entries : List CostEntry
  total : ℚ
  WarnThreshold : ℚ
  AlertThreshold : ℚ
  deriving Repr, DecidableEq, Inhabited

/-- `NewCostTracker`. -/
def NewCostTracker : CostTracker :=
  { entries := [], total := 0, WarnThreshold := 0.10, AlertThreshold := 5.00 }

/-- `(*CostTracker).Record`; `now` stands for `time.Now()`.  The threshold
checks only log and do not change state. -/
def record (ct : CostTracker) (backend model : String) (result : InvokeResult)
    (cost : CostEstimate) (now : Nat) : CostTracker :=
  { ct with
    entries := ct.entries ++
      [{ Timestamp := now, Backend := backend, Model := model,
         InputTokens := result.InputTokens, OutputTokens := result.OutputTokens,
         Cost := cost }],
    total := ct.total + cost.TotalCost }

/-- `(*CostTracker).Total`. -/
def totalCost (ct : CostTracker) : ℚ := ct.total

/-- `(*CostTracker).Entries` (the copy is identity on value lists). -/
def entriesOf (ct : CostTracker) : List CostEntry := ct.entries

structure BackendCostSummary where
  Invocations : Int
  InputTokens : Int
  OutputTokens : Int
  TotalCost : ℚ
  deriving Repr, DecidableEq, Inhabited

/-- `(*CostTracker).Summary`, read at one backend key: Go folds the entries
into a map starting from zero values; reading key `b` of that map aggregates
exactly the entries whose `Backend` is `b`, in order. -/
def summary (ct : CostTracker) (b : String) : BackendCostSummary :=
  ct.entries.foldl
    (fun s e =>
      if e.Backend = b then
        { Invocations := s.Invocations + 1,
          InputTokens := s.InputTokens + e.InputTokens,
          OutputTokens := s.OutputTokens + e.OutputTokens,
          TotalCost := s.TotalCost + e.Cost.TotalCost }
      else s)
    { Invocations := 0, InputTokens := 0, OutputTokens := 0, TotalCost := 0 }

/-- `(*CostTracker).Reset`. -/
def reset (ct : CostTracker) : CostTracker :=
  { ct with entries := [], total := 0 }

/-! ## Definitions written from claim wording (marked; used to compare against the source embedding) -/

/-- Modelled from the claim's words (not from the source): the effective
minimum tier as claim C2 states it — "lowered by one tier for intent
fast/cheap (floored at Simple), raised by one tier for intent quality
(capped at Complex)". -/
def specEffectiveMinTier (minTier : ModelTier) (intent : Intent) : ModelTier :=
  if intent = IntentFast ∨ intent = IntentCheap then max (minTier - 1) TierSimple
  else if intent = IntentQuality then min (minTier + 1) TierComplex
  else minTier

/-- The selection key scanned by `truncateLongest`: system messages are
never candidates, all others are keyed by content byte length; with the
strict `>` against a running record starting at 0, a key of 0 is never
selected, so mapping system messages to 0 captures the scan exactly. -/
def msgScanKey (m : Message) : Nat :=
  if m.Role = "system" then 0 else m.Content.utf8ByteSize

/-- Running first-argmax over a list of keys (the abstract shape of the
`findLongestIdx` scan). -/
def natArgAux : List Nat → Nat → Option Nat → Nat → Option Nat
  | [], _, best, _ => best
  | x :: rest, idx, best, bestLen =>
    if x > bestLen then natArgAux rest (idx + 1) (some idx) x
    else natArgAux rest (idx + 1) best bestLen

/-- The first-argmax selection stated declaratively: the first index whose
key attains the maximum key, or `none` when every key is 0 (that is, every
message is a system message or has empty content). -/
def specLongestIdx (msgs : List Message) : Option Nat :=
  let lens := msgs.map msgScanKey
  let best := lens.foldr max 0
  if best = 0 then none else some (List.indexOf best lens)

/-- Modelled from the amended claim C7's words (not from the source): while
the total estimate exceeds the budget, more than one message remains, and a
removable message exists (non-system, non-empty content), delete the first
longest such message and repeat. -/
def claimTruncateLongest : Nat → List Message → Int → List Message
  | 0, msgs, _ => msgs
  | fuel + 1, msgs, budget =>
    if estimateTokens msgs ≤ budget ∨ msgs.length ≤ 1 then msgs
    else
      match specLongestIdx msgs with
      | none => msgs
      | some i => claimTruncateLongest fuel (msgs.eraseIdx i) budget

/-! ## Shared lemmas -/

theorem clampScore_nonneg (s : Int) : 0 ≤ clampScore s := by
  unfold clampScore; split_ifs <;> omega

theorem clampScore_le_hundred (s : Int) : clampScore s ≤ 100 := by
  unfold clampScore; split_ifs <;> omega

theorem scoreToTier_cases (s : Int) :
    (scoreToTier s = TierSimple ↔ s < 25) ∧
    (scoreToTier s = TierModerate ↔ 25 ≤ s ∧ s < 50) ∧
    (scoreToTier s = TierComplex ↔ 50 ≤ s) := by
  unfold scoreToTier TierSimple TierModerate TierComplex
  split_ifs with h1 h2 <;> refine ⟨?_, ?_, ?_⟩ <;> constructor <;>
    intro h <;>
    first
    | omega
    | rfl
    | exact absurd h (by decide)

/-! ## Claim C1 -/

/-- C1: `Analyze` reports `RequiresToolUse` exactly when the lower-cased
combined title-and-description text contains one of the fixed tool-use
phrases — independently of the labels and of the score — and in that case it
returns `MinTier = TierCLI` and `Score = 100`, unconditionally. -/
theorem analyze_tool_use_short_circuit (title description : String)
    (labels : List String) :
    (analyze title description labels).RequiresToolUse =
      requiresToolUse (goToLower (title ++ " " ++ description)) ∧
    (requiresToolUse (goToLower (title ++ " " ++ description)) = true →
      (analyze title description labels).MinTier = TierCLI ∧
      (analyze title description labels).Score = 100) := by
  by_cases h : requiresToolUse (goToLower (title ++ " " ++ description)) = true
  · simp [analyze, h]
  · simp [analyze, h]

theorem analyze_tool_use_short_circuit_witness :
    requiresToolUse (goToLower ("Task" ++ " " ++ "Create a file called config.json")) = true ∧
    (analyze "Task" "Create a file called config.json" []).MinTier = TierCLI ∧
    (analyze "Task" "Create a file called config.json" []).Score = 100 :=
  ⟨by decide,
   (analyze_tool_use_short_circuit "Task" "Create a file called config.json" []).2
     (by decide)⟩

/-! ## Claim C3 -/

/-- C3: the score returned by `Analyze` always lies in `[0, 100]`, and when
`RequiresToolUse` is false the returned tier is exactly the score bucket:
Simple iff score < 25, Moderate iff 25 ≤ score < 50, Complex iff 50 ≤ score
(so `TierCLI` is never produced from the score alone). -/
theorem analyze_score_range_and_tier (title description : String)
    (labels : List String) :
    (0 ≤ (analyze title description labels).Score ∧
     (analyze title description labels).Score ≤ 100) ∧
    ((analyze title description labels).RequiresToolUse = false →
      ((analyze title description labels).MinTier = TierSimple ↔
        (analyze title description labels).Score < 25) ∧
      ((analyze title description labels).MinTier = TierModerate ↔
        25 ≤ (analyze title description labels).Score ∧
        (analyze title description labels).Score < 50) ∧
      ((analyze title description labels).MinTier = TierComplex ↔
        50 ≤ (analyze title description labels).Score)) := by
  by_cases h : requiresToolUse (goToLower (title ++ " " ++ description)) = true
  · simp [analyze, h]
  · have hb1 := clampScore_nonneg
      (rawScore (goToLower (title ++ " " ++ description)) labels)
    have hb2 := clampScore_le_hundred
      (rawScore (goToLower (title ++ " " ++ description)) labels)
    have hc := scoreToTier_cases
      (clampScore (rawScore (goToLower (title ++ " " ++ description)) labels))
    simp only [analyze, h]
    simp only [if_false, Bool.false_eq_true]
    exact ⟨⟨hb1, hb2⟩, fun _ => hc⟩

theorem analyze_score_range_and_tier_witness :
    (analyze "Summarize" "Summarize the main points" []).RequiresToolUse = false ∧
    ((analyze "Summarize" "Summarize the main points" []).MinTier = TierSimple ↔
      (analyze "Summarize" "Summarize the main points" []).Score < 25) :=
  ⟨by decide,
   ((analyze_score_range_and_tier "Summarize" "Summarize the main points" []).2
     (by decide)).1⟩

/-! ## Claim C2 -/

/-- C2 counterexample: at `MinTier = TierCLI`, `RequiresToolUse = false`,
intent `quality`, backends `["bedrock"]`, the code returns `none`, yet the
claim's right-hand side is false: tool use is not required and the catalog
entry `opus` meets the claim's effective minimum tier `min (TierCLI + 1)
TierComplex = TierComplex` on an available backend.  The code raises the
tier only when it is below Complex, so `TierCLI` stays `TierCLI`. -/
theorem selectModel_none_iff_counterexample :
    selectModel { Score := 100, MinTier := TierCLI, RequiresToolUse := false,
                  Signals := [] } IntentQuality ["bedrock"] = none ∧
    ({ Score := 100, MinTier := TierCLI, RequiresToolUse := false,
       Signals := [] } : TaskComplexity).RequiresToolUse = false ∧
    ∃ cap ∈ ModelCapabilities,
      specEffectiveMinTier TierCLI IntentQuality ≤ cap.Tier ∧
      cap.Backend ∈ ["bedrock"] := by
  decide

/-- C2 (amended): `SelectModel` returns `none` iff `RequiresToolUse` is
true, or no catalog entry has tier ≥ the effective minimum tier with its
backend among the available ones — where the effective minimum tier is
`MinTier` lowered by one for intent fast/cheap when above Simple, and raised
by one for intent quality only when below Complex (a `MinTier` at or above
Complex — in particular `TierCLI` — is left unchanged, so `TierCLI` can
never be met by any catalog entry). -/
theorem selectModel_none_iff (c : TaskComplexity) (intent : Intent)
    (bs : List String) :
    selectModel c intent bs = none ↔
      (c.RequiresToolUse = true ∨
       ∀ cap ∈ ModelCapabilities,
         ¬(effectiveMinTier c.MinTier intent ≤ cap.Tier ∧ cap.Backend ∈ bs)) := by
  unfold selectModel
  by_cases h : c.RequiresToolUse = true
  · simp [h]
  · simp only [h, if_false, Bool.false_eq_true, false_or]
    cases hf : ModelCapabilities.filter
        (fun cap => decide (cap.Tier ≥ effectiveMinTier c.MinTier intent) &&
          decide (cap.Backend ∈ bs)) with
    | nil =>
      have hall := List.filter_eq_nil_iff.mp hf
      simp only [Bool.and_eq_true, decide_eq_true_eq, ge_iff_le, not_and] at hall
      constructor
      · intro _ cap hcap hc
        exact hall cap hcap hc.1 hc.2
      · intro _
        rfl
    | cons first rest =>
      have hfirst : first ∈ ModelCapabilities.filter
          (fun cap => decide (cap.Tier ≥ effectiveMinTier c.MinTier intent) &&
            decide (cap.Backend ∈ bs)) := by
        rw [hf]; exact List.mem_cons_self _ _
      have hmem := List.mem_of_mem_filter hfirst
      have hprop := List.of_mem_filter hfirst
      simp only [Bool.and_eq_true, decide_eq_true_eq, ge_iff_le] at hprop
      constructor
      · intro habs
        exact absurd habs (by simp)
      · intro hall
        exact absurd ⟨hprop.1, hprop.2⟩ (hall first hmem)

/-! ## Claim C6 -/

/-- C6: the `ModelCapabilities` catalog violates ascending-cost order within
a tier: entry 2 (`grok/grok-3`, tier Moderate, $0.010 per 1K) appears before
the cheaper entry 3 (`bedrock/sonnet`, tier Moderate, $0.009 per 1K),
contradicting both the claim and the catalog's own source comment "Ordered
by cost (cheapest first within each tier)". -/
theorem modelCapabilities_moderate_cost_order_violation :
    ModelCapabilities.get? 2 =
      some { Backend := "grok", Model := "grok-3", Tier := TierModerate,
             CostPer1K := 0.01, SpeedScore := 7 } ∧
    ModelCapabilities.get? 3 =
      some { Backend := "bedrock", Model := "sonnet", Tier := TierModerate,
             CostPer1K := 0.009, SpeedScore := 6 } ∧
    ¬ ((0.01 : ℚ) ≤ 0.009) := by
  refine ⟨rfl, rfl, by norm_num⟩

/-! ## Claims C5 and C10 -/

theorem two_le_estimateMessageTokens (m : Message) :
    2 ≤ estimateMessageTokens m := by
  unfold estimateMessageTokens
  omega

theorem le_foldl_estimate (l : List Message) :
    ∀ a : Int, a ≤ l.foldl (fun total msg => total + estimateMessageTokens msg) a := by
  induction l with
  | nil => intro a; simp
  | cons x xs ih =>
    intro a
    simp only [List.foldl_cons]
    have h1 := two_le_estimateMessageTokens x
    have h2 := ih (a + estimateMessageTokens x)
    omega

theorem two_le_estimateTokens_cons (m : Message) (rest : List Message) :
    2 ≤ estimateTokens (m :: rest) := by
  unfold estimateTokens
  simp only [List.foldl_cons]
  have h1 := two_le_estimateMessageTokens m
  have h2 := le_foldl_estimate rest (0 + estimateMessageTokens m)
  omega

/-- C5: whenever the heuristic token estimate of a non-empty message list is
at most `maxTokens` minus the manager's `ReserveTokens`, `PrepareContext`
returns exactly the input list (same messages, same order) with no error. -/
theorem prepareContext_fits_returns_input (cm : ContextManager)
    (msgs : List Message) (maxTokens : Int) (strategy : TruncationStrategy)
    (hne : msgs ≠ [])
    (hfit : estimateTokens msgs ≤ maxTokens - cm.ReserveTokens) :
    prepareContext cm msgs maxTokens strategy = .ok msgs := by
  obtain ⟨m, rest, rfl⟩ : ∃ m rest, msgs = m :: rest := by
    cases msgs with
    | nil => exact absurd rfl hne
    | cons m rest => exact ⟨m, rest, rfl⟩
  have h2 := two_le_estimateTokens_cons m rest
  have hpos : ¬ (maxTokens - cm.ReserveTokens ≤ 0) := by omega
  simp [prepareContext, hpos, hfit]

theorem prepareContext_fits_returns_input_witness :
    ([⟨"user", "hi"⟩] : List Message) ≠ [] ∧
    estimateTokens [⟨"user", "hi"⟩] ≤ 10000 - NewContextManager.ReserveTokens ∧
    prepareContext NewContextManager [⟨"user", "hi"⟩] 10000 TruncateOldest =
      .ok [⟨"user", "hi"⟩] :=
  ⟨by decide, by decide,
   prepareContext_fits_returns_input NewContextManager [⟨"user", "hi"⟩]
     10000 TruncateOldest (by decide) (by decide)⟩

/-- C10: on the empty message list `PrepareContext` returns the empty list
with no error for every `maxTokens` and strategy — the empty-input early
return precedes the reserve check — whereas any non-empty input with
`ReserveTokens ≥ maxTokens` instead produces the "too small for response
reserve" error. -/
theorem prepareContext_empty_ok (cm : ContextManager) (maxTokens : Int)
    (strategy : TruncationStrategy) :
    prepareContext cm [] maxTokens strategy = .ok [] ∧
    (∀ msgs : List Message, msgs ≠ [] → maxTokens ≤ cm.ReserveTokens →
      prepareContext cm msgs maxTokens strategy =
        .error ("max_tokens (" ++ toString maxTokens ++
          ") too small for response reserve (" ++
          toString cm.ReserveTokens ++ ")")) := by
  constructor
  · simp [prepareContext]
  · intro msgs hne hres
    have hlen : ¬ (msgs.length = 0) := by
      simpa [List.length_eq_zero] using hne
    have hneg : maxTokens - cm.ReserveTokens ≤ 0 := by omega
    simp [prepareContext, hlen, hneg]

theorem prepareContext_empty_ok_witness :
    prepareContext NewContextManager [] 0 TruncateMiddle = .ok [] ∧
    ([⟨"user", "hi"⟩] : List Message) ≠ [] ∧
    (0 : Int) ≤ NewContextManager.ReserveTokens ∧
    prepareContext NewContextManager [⟨"user", "hi"⟩] 0 TruncateMiddle =
      .error ("max_tokens (" ++ toString (0 : Int) ++
        ") too small for response reserve (" ++
        toString NewContextManager.ReserveTokens ++ ")") :=
  ⟨(prepareContext_empty_ok NewContextManager 0 TruncateMiddle).1,
   by decide, by decide,
   (prepareContext_empty_ok NewContextManager 0 TruncateMiddle).2
     [⟨"user", "hi"⟩] (by decide) (by decide)⟩

/-! ## Claim C9 -/

/-- C9: `Record` increases `Total()` by exactly the recorded
`CostEstimate.TotalCost` and increases `Summary()[backend].Invocations` by
exactly one; `Reset()` leaves a zero total and no entries. -/
theorem costTracker_record_reset (ct : CostTracker) (backend model : String)
    (result : InvokeResult) (cost : CostEstimate) (now : Nat) :
    totalCost (record ct backend model result cost now) =
      totalCost ct + cost.TotalCost ∧
    (summary (record ct backend model result cost now) backend).Invocations =
      (summary ct backend).Invocations + 1 ∧
    totalCost (reset ct) = 0 ∧
    entriesOf (reset ct) = [] := by
  refine ⟨rfl, ?_, rfl, rfl⟩
  simp [summary, record, List.foldl_append]

/-! ## Claim C8 -/

theorem truncateMessage_role (m : Message) (n : Int) :
    (truncateMessage m n).Role = m.Role := by
  simp only [truncateMessage]
  split_ifs <;> rfl

theorem findLongestAux_ge (l : List Message) :
    ∀ (idx n : Nat) (best : Option Nat) (bestLen : Nat),
      (∀ j, best = some j → n ≤ j) → n ≤ idx →
      ∀ i, findLongestAux l idx best bestLen = some i → n ≤ i := by
  induction l with
  | nil =>
    intro idx n best bestLen hbest _ i h
    exact hbest i h
  | cons m rest ih =>
    intro idx n best bestLen hbest hidx i h
    unfold findLongestAux at h
    split_ifs at h with hc
    · exact ih (idx + 1) n (some idx) _
        (fun j hj => by injection hj with hj; omega) (by omega) i h
    · exact ih (idx + 1) n best bestLen hbest (by omega) i h

theorem findLongestIdx_cons_system_pos (m : Message) (rest : List Message)
    (hm : m.Role = "system") :
    ∀ i, findLongestIdx (m :: rest) = some i → 1 ≤ i := by
  intro i h
  unfold findLongestIdx findLongestAux at h
  rw [if_neg (by simp [hm])] at h
  exact findLongestAux_ge rest 1 1 none 0 (fun j hj => by cases hj) le_rfl i h

theorem truncateLongestLoop_cons_system (fuel : Nat) :
    ∀ (m : Message) (rest : List Message) (b : Int), m.Role = "system" →
      ∃ l, truncateLongestLoop fuel (m :: rest) b = m :: l := by
  induction fuel with
  | zero => exact fun m rest b _ => ⟨rest, rfl⟩
  | succ fuel ih =>
    intro m rest b hm
    unfold truncateLongestLoop
    split_ifs with hc
    · cases hfi : findLongestIdx (m :: rest) with
      | none =>
        exact ⟨rest, rfl⟩
      | some i =>
        have h1 : 1 ≤ i := findLongestIdx_cons_system_pos m rest hm i hfi
        obtain ⟨j, rfl⟩ : ∃ j, i = j + 1 := ⟨i - 1, by omega⟩
        show ∃ l, truncateLongestLoop fuel (m :: rest.eraseIdx j) b = m :: l
        exact ih m (rest.eraseIdx j) b hm
    · exact ⟨rest, rfl⟩

/-- C8: on an input whose first message has role `"system"` (and with no
other system messages), each of the three truncation strategies returns a
non-empty list whose first message still has role `"system"`: the system
message is never removed to make room for conversation content (its content
may be shrunk by `truncateOldest` when it alone exceeds the budget, but the
role — and thus the message's identity as the system prompt — survives). -/
theorem truncation_preserves_leading_system (m0 : Message)
    (rest : List Message) (budget : Int) (hm0 : m0.Role = "system")
    (_hrest : ∀ m ∈ rest, m.Role ≠ "system") :
    (∃ r l, truncateOldest (m0 :: rest) budget = .ok (r :: l) ∧
      r.Role = "system") ∧
    (∃ r l, truncateMiddle (m0 :: rest) budget = .ok (r :: l) ∧
      r.Role = "system") ∧
    (∃ r l, truncateLongest (m0 :: rest) budget = .ok (r :: l) ∧
      r.Role = "system") := by
  refine ⟨?_, ?_, ?_⟩
  · unfold truncateOldest
    simp only [splitLeadingSystem, hm0, if_pos rfl]
    split_ifs with hlen hava
    · exact ⟨m0, rest, rfl, hm0⟩
    · exact ⟨truncateMessage m0 budget, [], rfl, by
        rw [truncateMessage_role]; exact hm0⟩
    · exact ⟨m0, _, rfl, hm0⟩
  · unfold truncateMiddle
    simp only [splitLeadingSystem, hm0, if_pos rfl]
    split_ifs with hlen hconv hrem
    · exact ⟨m0, rest, rfl, hm0⟩
    · exact ⟨m0, rest, rfl, hm0⟩
    · exact ⟨m0, _, rfl, hm0⟩
    · exact ⟨m0, _, rfl, hm0⟩
  · unfold truncateLongest
    obtain ⟨l, hl⟩ :=
      truncateLongestLoop_cons_system (m0 :: rest).length m0 rest budget hm0
    exact ⟨m0, l, by rw [hl], hm0⟩

theorem truncation_preserves_leading_system_witness :
    (⟨"system", "be nice"⟩ : Message).Role = "system" ∧
    (∀ m ∈ ([⟨"user", "hello"⟩] : List Message), m.Role ≠ "system") ∧
    ((∃ r l, truncateOldest [⟨"system", "be nice"⟩, ⟨"user", "hello"⟩] 1 =
        .ok (r :: l) ∧ r.Role = "system") ∧
     (∃ r l, truncateMiddle [⟨"system", "be nice"⟩, ⟨"user", "hello"⟩] 1 =
        .ok (r :: l) ∧ r.Role = "system") ∧
     (∃ r l, truncateLongest [⟨"system", "be nice"⟩, ⟨"user", "hello"⟩] 1 =
        .ok (r :: l) ∧ r.Role = "system")) :=
  ⟨by decide, by decide,
   truncation_preserves_leading_system ⟨"system", "be nice"⟩
     [⟨"user", "hello"⟩] 1 (by decide) (by decide)⟩

/-! ## Claim C7 -/

theorem findLongestAux_eq_natArgAux (l : List Message) :
    ∀ (idx : Nat) (best : Option Nat) (bestLen : Nat),
      findLongestAux l idx best bestLen =
        natArgAux (l.map msgScanKey) idx best bestLen := by
  induction l with
  | nil => intros; rfl
  | cons m rest ih =>
    intro idx best bestLen
    simp only [List.map_cons]
    unfold findLongestAux natArgAux
    by_cases hs : m.Role = "system"
    · have hkey : msgScanKey m = 0 := by simp [msgScanKey, hs]
      rw [hkey, if_neg (by simp [hs]), if_neg (by omega)]
      exact ih _ _ _
    · have hkey : msgScanKey m = m.Content.utf8ByteSize := by simp [msgScanKey, hs]
      rw [hkey]
      by_cases hgt : m.Content.utf8ByteSize > bestLen
      · rw [if_pos ⟨hs, hgt⟩, if_pos hgt]
        exact ih _ _ _
      · rw [if_neg (fun hand => hgt hand.2), if_neg hgt]
        exact ih _ _ _

theorem natArgAux_spec (l : List Nat) :
    ∀ (k : Nat) (best : Option Nat) (b : Nat),
      natArgAux l k best b =
        if l.foldr max 0 > b then
          some (k + List.indexOf (l.foldr max 0) l)
        else best := by
  induction l with
  | nil => intro k best b; simp [natArgAux]
  | cons x rest ih =>
    intro k best b
    simp only [List.foldr_cons]
    unfold natArgAux
    by_cases hx : x > b
    · rw [if_pos hx, ih]
      by_cases hr : rest.foldr max 0 > x
      · have hmax : max x (rest.foldr max 0) = rest.foldr max 0 := by omega
        have hne : x ≠ rest.foldr max 0 := by omega
        rw [if_pos hr, hmax, if_pos (by omega), List.indexOf_cons_ne _ hne]
        congr 1
        omega
      · have hmax : max x (rest.foldr max 0) = x := by omega
        rw [if_neg hr, hmax, if_pos hx, List.indexOf_cons_self]
        simp
    · rw [if_neg hx, ih]
      by_cases hr : rest.foldr max 0 > b
      · have hgtx : rest.foldr max 0 > x := by omega
        have hmax : max x (rest.foldr max 0) = rest.foldr max 0 := by omega
        have hne : x ≠ rest.foldr max 0 := by omega
        rw [if_pos hr, hmax, if_pos hr, List.indexOf_cons_ne _ hne]
        congr 1
        omega
      · rw [if_neg hr, if_neg (by omega)]

theorem findLongestIdx_eq_spec (msgs : List Message) :
    findLongestIdx msgs = specLongestIdx msgs := by
  unfold findLongestIdx specLongestIdx
  rw [findLongestAux_eq_natArgAux, natArgAux_spec]
  by_cases h : (msgs.map msgScanKey).foldr max 0 = 0
  · rw [if_neg (by omega), if_pos h]
  · rw [if_pos (by omega), if_neg h]
    simp

theorem truncateLongestLoop_eq_claim (fuel : Nat) :
    ∀ (msgs : List Message) (b : Int),
      truncateLongestLoop fuel msgs b = claimTruncateLongest fuel msgs b := by
  induction fuel with
  | zero => intros; rfl
  | succ fuel ih =>
    intro msgs b
    unfold truncateLongestLoop claimTruncateLongest
    rw [← findLongestIdx_eq_spec]
    by_cases hc : estimateTokens msgs > b ∧ msgs.length > 1
    · rw [if_pos hc, if_neg (by omega)]
      cases hfi : findLongestIdx msgs with
      | none => rfl
      | some i => exact ih _ _
    · rw [if_neg hc, if_pos (by omega)]

/-- C7 counterexample: a single oversized non-system message is returned
unchanged by `truncateLongest` (the loop requires more than one message):
the result neither fits the budget nor is free of non-system messages,
refuting "removed until the total fits or no non-system messages remain". -/
theorem truncateLongest_counterexample :
    truncateLongest
        [{ Role := "user",
           Content := "0123456789012345678901234567890123456789" }] 5 =
      .ok [{ Role := "user",
             Content := "0123456789012345678901234567890123456789" }] ∧
    estimateTokens
        [{ Role := "user",
           Content := "0123456789012345678901234567890123456789" }] > 5 ∧
    ({ Role := "user",
       Content := "0123456789012345678901234567890123456789" } : Message).Role
      ≠ "system" :=
  ⟨rfl, by decide, by decide⟩

/-- C7 (amended): when the input does not fit, `truncateLongest` repeatedly
removes the first longest non-system message with non-empty content until
the total estimate fits the budget, or at most one message remains, or every
remaining message is a system message or has empty content — exactly the
reference removal loop `claimTruncateLongest`, and never an error. -/
theorem truncateLongest_removes_longest (msgs : List Message) (b : Int) :
    truncateLongest msgs b = .ok (claimTruncateLongest msgs.length msgs b) := by
  unfold truncateLongest
  rw [truncateLongestLoop_eq_claim]

/-! ## Claim C4 -/

/-- C4: legacy-hint asymmetry in `Route`.  (1) When the model tag maps via
the static `TierToBackend` table to a backend that is not registered and the
catalog offers no substitute among registered backends, `routeByModelTag`
yields nothing and `Route` falls through to the remaining decision steps
(legacy tier stage, then analysis) instead of returning immediately.
(2) When the tier hint is haiku, sonnet or opus and no capable model is
available, `routeByLegacyTier` yields a CLI decision with reason
"no API model available for tier: <tier>" and `Route` returns exactly that
decision — no further fallback is attempted. -/
theorem route_legacy_hint_asymmetry (r : Router) (hints hints2 : RoutingHints)
    (tag tier : String) (mp : String × String) (p : Intent × ModelTier) :
    (tierToBackendLookup tag = some mp →
     mp.1 ∉ r.registered →
     selectModel (fallbackComplexityForIntent (fallbackIntentForTag tag))
       (fallbackIntentForTag tag) r.registered = none →
     routeByModelTag r tag = none ∧
     (r.config.Enabled = true → hints.ModelTag = tag →
       route r hints = routeFromTierStage r hints (routeIntent hints))) ∧
    ((tier = "haiku" ∨ tier = "sonnet" ∨ tier = "opus") →
     legacyTierParams tier = some p →
     selectModel { Score := 0, MinTier := p.2, RequiresToolUse := false,
                   Signals := [] } p.1 r.registered = none →
     routeByLegacyTier r tier =
       some { Decision := RouteCLI, Backend := "", Model := "",
              Reason := "no API model available for tier: " ++ tier,
              FallbackToCLI := false } ∧
     (r.config.Enabled = true → hints2.ModelTag = "" → hints2.Tier = tier →
       route r hints2 =
         { Decision := RouteCLI, Backend := "", Model := "",
           Reason := "no API model available for tier: " ++ tier,
           FallbackToCLI := false })) := by
  obtain ⟨pIntent, pTier⟩ := p
  constructor
  · intro hlook hreg hsel
    have htag1 : routeByModelTag r tag = none := by
      unfold routeByModelTag
      rw [hlook]
      dsimp only
      rw [if_neg hreg]
      unfold findFallbackForTag
      dsimp only
      rw [hsel]
    refine ⟨htag1, ?_⟩
    intro hen htag
    unfold route
    rw [if_neg (by simp [hen])]
    have hne : hints.ModelTag ≠ "" := by
      rw [htag]
      intro h0
      rw [h0] at hlook
      have hn : tierToBackendLookup "" = none := by decide
      rw [hn] at hlook
      exact Option.noConfusion hlook
    rw [if_pos hne, htag, htag1]
  · intro htier hparams hsel
    have hlow : goToLower tier = tier := by
      rcases htier with h | h | h <;> subst h <;> decide
    have hres : routeByLegacyTier r tier =
        some { Decision := RouteCLI, Backend := "", Model := "",
               Reason := "no API model available for tier: " ++ tier,
               FallbackToCLI := false } := by
      unfold routeByLegacyTier
      rw [hlow]
      dsimp only
      rw [hparams]
      dsimp only
      rw [hsel]
    refine ⟨hres, ?_⟩
    intro hen hmt ht
    unfold route
    rw [if_neg (by simp [hen]), if_neg (by simp [hmt])]
    unfold routeFromTierStage
    have hne2 : hints2.Tier ≠ "" := by
      rw [ht]
      rcases htier with h | h | h <;> subst h <;> decide
    rw [if_pos hne2, ht, hres]

theorem route_legacy_hint_asymmetry_witness :
    tierToBackendLookup "grok-fast" = some ("grok", "grok-3-mini") ∧
    routeByModelTag
      { config := { DefaultRoutingConfig with Enabled := true },
        registered := [] } "grok-fast" = none ∧
    route { config := { DefaultRoutingConfig with Enabled := true },
            registered := [] } { ModelTag := "grok-fast" } =
      routeFromTierStage
        { config := { DefaultRoutingConfig with Enabled := true },
          registered := [] } { ModelTag := "grok-fast" }
        (routeIntent { ModelTag := "grok-fast" }) ∧
    routeByLegacyTier
      { config := { DefaultRoutingConfig with Enabled := true },
        registered := [] } "opus" =
      some { Decision := RouteCLI, Backend := "", Model := "",
             Reason := "no API model available for tier: " ++ "opus",
             FallbackToCLI := false } ∧
    route { config := { DefaultRoutingConfig with Enabled := true },
            registered := [] } { Tier := "opus" } =
      { Decision := RouteCLI, Backend := "", Model := "",
        Reason := "no API model available for tier: " ++ "opus",
        FallbackToCLI := false } := by
  have h := route_legacy_hint_asymmetry
    { config := { DefaultRoutingConfig with Enabled := true }, registered := [] }
    { ModelTag := "grok-fast" } { Tier := "opus" }
    "grok-fast" "opus" ("grok", "grok-3-mini") (IntentQuality, TierComplex)
  have h1 := h.1 (by decide) (by decide) (by decide)
  have h2 := h.2 (by decide) (by decide) (by decide)
  exact ⟨by decide, h1.1, h1.2 rfl rfl, h2.1, h2.2 rfl rfl rfl⟩

end Gastown
